import Mathlib

/-!
Verification of the birth-chart placement pipeline.

The JavaScript sources are embedded shallowly: degrees become exact
rationals (`ℚ`, modelling the finite doubles the code manipulates),
JavaScript strings become Lean `String`s manipulated through small
executable models of the string builtins the code calls, fallible code
returns `Except`, and the external HTTP providers become function-typed
oracles passed in as parameters.
-/

/-! ## Models of the JavaScript string builtins used by the handlers -/

/-- JavaScript `String.prototype.split` with a one-character separator,
on the character list of the string: `"".split(",")` is `[""]`, and a
separator at either end produces an empty fragment. -/
def splitChar (c : Char) : List Char → List (List Char)
  | [] => [[]]
  | x :: xs =>
    if x = c then [] :: splitChar c xs
    else
      match splitChar c xs with
      | [] => [[x]]
      | y :: ys => (x :: y) :: ys

/-- JavaScript `s.split(sep)` for a one-character separator. -/
def jsSplit (c : Char) (s : String) : List String :=
  (splitChar c s.data).map String.mk

/-- Drop leading and trailing whitespace from a character list. -/
def trimChars (s : List Char) : List Char :=
  ((s.dropWhile Char.isWhitespace).reverse.dropWhile Char.isWhitespace).reverse

/-- JavaScript `s.trim()`. -/
def jsTrim (s : String) : String :=
  String.mk (trimChars s.data)

/-- JavaScript `s.toLowerCase()` (on the ASCII fragment the tag keys and
planet names use). -/
def jsToLower (s : String) : String :=
  String.mk (s.data.map Char.toLower)

/-- Value of a list of decimal digits. -/
def digitsVal (l : List Char) : ℕ :=
  l.foldl (fun acc c => acc * 10 + (c.toNat - 48)) 0

/-- Model of the JavaScript `Number(…)` string coercion on the fragment
the pipeline feeds it: the trimmed string empty means `0`, an unsigned
decimal integer literal means its value, and anything else means `none`
(JavaScript `NaN`, which is exactly the non-finite outcome
`Number.isFinite` rejects here). Signed, fractional and exponent
literals are not exercised by the date/time fields these claims cover. -/
def jsNumber (s : String) : Option ℚ :=
  let t := jsTrim s
  if t = "" then some 0
  else if t.data ≠ [] ∧ t.data.all Char.isDigit then some ((digitsVal t.data : ℕ) : ℚ)
  else none

/-- JavaScript `Array.prototype.join(sep)`. -/
def joinSep (sep : String) : List String → String
  | [] => ""
  | [a] => a
  | a :: b :: rest => a ++ sep ++ joinSep sep (b :: rest)

/-- JavaScript `??` (nullish coalescing) on optional values. -/
def jsOr {α : Type} (a b : Option α) : Option α :=
  match a with
  | some x => some x
  | none => b

/-! ## Degree Normalizer (`normalizeDeg`, generate-chart.js)

`function normalizeDeg(deg) { let d = Number(deg); while (d < 0) d += 360;
while (d >= 360) d -= 360; return d; }` — two reduction loops, embedded
as two well-founded recursions. -/

/-- The first loop of `normalizeDeg`: `while (d < 0) d += 360`. -/
def normUp (d : ℚ) : ℚ :=
  if h : d < 0 then normUp (d + 360) else d
termination_by (⌈-d / 360⌉).toNat
decreasing_by
  have h360 : (0:ℚ) < 360 := by norm_num
  have hpos : 0 < -d / 360 := div_pos (by linarith) h360
  have hc : 0 < ⌈-d / 360⌉ := Int.ceil_pos.mpr hpos
  have he : -(d + 360) / 360 = -d / 360 - ((1:ℤ):ℚ) := by push_cast; ring
  rw [he, Int.ceil_sub_int]
  omega

/-- The second loop of `normalizeDeg`: `while (d >= 360) d -= 360`. -/
def normDown (d : ℚ) : ℚ :=
  if h : d ≥ 360 then normDown (d - 360) else d
termination_by (⌊d / 360⌋).toNat
decreasing_by
  have h360 : (0:ℚ) < 360 := by norm_num
  have h1 : (1:ℚ) ≤ d / 360 := by rw [le_div_iff₀ h360]; linarith
  have hc : 1 ≤ ⌊d / 360⌋ := Int.le_floor.mpr (by exact_mod_cast h1)
  have he : (d - 360) / 360 = d / 360 - ((1:ℤ):ℚ) := by push_cast; ring
  rw [he, Int.floor_sub_int]
  omega

/-- `normalizeDeg` from generate-chart.js: repeated reduction of the
degree into `[0, 360)`. -/
def normalizeDeg (deg : ℚ) : ℚ :=
  normDown (normUp deg)

/-! ## Sign Resolver (`degreeToSign`, generate-chart.js) -/

/-- The fixed zodiacal order, starting at Aries, from `degreeToSign`. -/
def zodiacSigns : List String :=
  ["Aries","Taurus","Gemini","Cancer","Leo","Virgo",
   "Libra","Scorpio","Sagittarius","Capricorn","Aquarius","Pisces"]

/-- `degreeToSign` from generate-chart.js: normalize, divide by 30 with
`Math.floor`, index into the sign table. The out-of-range default `""`
mirrors the JavaScript `undefined` of an out-of-bounds array read; the
range theorems show it is never taken. -/
def degreeToSign (deg : ℚ) : String :=
  zodiacSigns.getD (⌊normalizeDeg deg / 30⌋).toNat ""

/-! ## House Assigner (`getHouseFromCusps`, generate-chart.js) -/

/-- One house cusp record `{house, degree}` as consumed by
`getHouseFromCusps` (both fields go through `Number(…)`). -/
structure HouseCusp where
  house : ℚ
  degree : ℚ
deriving DecidableEq

/-- Membership of point `p` in the zodiacal segment from `start` to
`stop`: the two branches of the loop body of `getHouseFromCusps`
(non-wrapping segment `[start, stop)` when `start ≤ stop`, wrapping
segment `p ≥ start or p < stop` otherwise). -/
def segContains (p start stop : ℚ) : Bool :=
  if start ≤ stop then decide (start ≤ p ∧ p < stop)
  else decide (start ≤ p ∨ p < stop)

/-- The cusp preprocessing of `getHouseFromCusps`: normalize every cusp
degree, then sort by house number ascending (JavaScript's
`sort((a, b) => a.house - b.house)` is a stable ascending sort). -/
def sortCusps (houses : List HouseCusp) : List HouseCusp :=
  List.insertionSort (fun a b => a.house ≤ b.house)
    (houses.map (fun h => { house := h.house, degree := normalizeDeg h.degree }))

/-- Iteration `i` of the segment loop of `getHouseFromCusps`: the segment
runs from cusp `i` to cusp `(i+1) % length`, and a match returns that
cusp's house number. -/
def cuspProbe (p : ℚ) (cusps : List HouseCusp) (i : ℕ) : Option ℚ :=
  if segContains p (cusps.getD i ⟨1, 0⟩).degree
      (cusps.getD ((i + 1) % cusps.length) ⟨1, 0⟩).degree
  then some (cusps.getD i ⟨1, 0⟩).house else none

/-- `getHouseFromCusps` from generate-chart.js: first matching segment in
ascending house order wins; fallback house is 1. -/
def getHouseFromCusps (pointDeg : ℚ) (houses : List HouseCusp) : ℚ :=
  match (List.range (sortCusps houses).length).findSome?
      (cuspProbe (normalizeDeg pointDeg) (sortCusps houses)) with
  | some h => h
  | none => 1

/-! ## Placement Assembler (`buildPlacements`, generate-chart.js)

Model of the `western_horoscope` response fragment the assembler reads:
each planet record carries a name, a sign string (`""` standing for the
JavaScript absent/falsy sign, matching every use site `p.sign || …`),
the two degree field spellings probed by `?? `, and a house number
(`none` standing for an absent field, whose `Number(…)` is `NaN`). -/

structure PlanetEntry where
  name : String
  sign : String
  full_degree : Option ℚ
  fullDegree : Option ℚ
  house : Option ℚ
deriving DecidableEq

/-- The ephemeris response fragment read by `buildPlacements`:
`planets`, `houses` (already defaulted to `[]` when not arrays) and the
optional top-level `ascendant` degree. -/
structure WesternHoroscope where
  planets : List PlanetEntry
  houses : List HouseCusp
  ascendant : Option ℚ
deriving DecidableEq

/-- `pickPlanet` from generate-chart.js: first entry whose lower-cased
name matches the lower-cased query. -/
def pickPlanet (planets : List PlanetEntry) (name : String) : Option PlanetEntry :=
  planets.find? (fun p => jsToLower p.name == jsToLower name)

/-- `node?.full_degree ?? node?.fullDegree ?? null` for the North Node
entry (`pickPlanet planets "Node"`). -/
def nodeFullDegOf (planets : List PlanetEntry) : Option ℚ :=
  jsOr ((pickPlanet planets "Node").bind (fun p => p.full_degree))
       ((pickPlanet planets "Node").bind (fun p => p.fullDegree))

/-- The synthesized South Node object of `buildPlacements` (its local
`southNode`), with the degree it was computed from. -/
structure SouthNodeObj where
  name : String
  full_degree : ℚ
  sign : String
  house : ℚ
deriving DecidableEq

/-- `southDeg`/`southNode` from `buildPlacements`: when the North Node
degree is present, the South Node degree is `normalizeDeg(deg + 180)` and
its sign and house are recomputed from that degree; otherwise `null`. -/
def southNodeOf (planets : List PlanetEntry) (houses : List HouseCusp) : Option SouthNodeObj :=
  match (nodeFullDegOf planets).map (fun nd => normalizeDeg (nd + 180)) with
  | some southDeg =>
      some ⟨"South Node", southDeg, degreeToSign southDeg, getHouseFromCusps southDeg houses⟩
  | none => none

/-- One entry of the output `list` of `buildPlacements`:
`{name, sign, house}`. -/
structure ListedPlacement where
  name : String
  sign : String
  house : Option ℚ
deriving DecidableEq

/-- The fixed body order of `buildPlacements` (`"Node"` is the North
Node). -/
def planetOrder : List String :=
  ["Sun","Moon","Mercury","Venus","Mars","Jupiter","Saturn","Uranus","Neptune","Pluto",
   "Chiron","Node"]

/-- The house-recomputation fallback of the list loop:
`p.full_degree != null ? getHouseFromCusps(p.full_degree, houses) : null`. -/
def listedHouseAlt (houses : List HouseCusp) (p : PlanetEntry) : Option ℚ :=
  p.full_degree.map (fun dg => getHouseFromCusps dg houses)

/-- `Number(p.house) || (p.full_degree != null ? … : null)` from the list
loop: an absent (`NaN`) or zero house number falls through to the
recomputation fallback. -/
def listedHouse (houses : List HouseCusp) (p : PlanetEntry) : Option ℚ :=
  match p.house with
  | some h => if h = 0 then listedHouseAlt houses p else some h
  | none => listedHouseAlt houses p

/-- The display label of the list loop: `"Node"` is renamed
`"North Node"`. -/
def nodeLabel (nm : String) : String :=
  if nm = "Node" then "North Node" else nm

/-- The main body loop of `buildPlacements`: walk `planetOrder`, skip
absent bodies (`continue`), and push `{name, sign, house}`. -/
def mainListOf (planets : List PlanetEntry) (houses : List HouseCusp) : List ListedPlacement :=
  planetOrder.filterMap (fun nm =>
    (pickPlanet planets nm).map (fun p => ⟨nodeLabel nm, p.sign, listedHouse houses p⟩))

/-- `ascPlanet?.full_degree ?? ascPlanet?.fullDegree ?? json?.ascendant ?? null`. -/
def ascDegOf (wh : WesternHoroscope) : Option ℚ :=
  jsOr (jsOr ((pickPlanet wh.planets "Ascendant").bind (fun p => p.full_degree))
            ((pickPlanet wh.planets "Ascendant").bind (fun p => p.fullDegree)))
       wh.ascendant

/-- `ascPlanet?.sign || (ascDeg != null ? degreeToSign(ascDeg) : "")`. -/
def risingSignOf (wh : WesternHoroscope) : String :=
  if ((pickPlanet wh.planets "Ascendant").map (fun p => p.sign)).getD "" = "" then
    match ascDegOf wh with
    | some dg => degreeToSign dg
    | none => ""
  else ((pickPlanet wh.planets "Ascendant").map (fun p => p.sign)).getD ""

/-- The `big3` object of `buildPlacements`: lower-cased sign strings,
empty when the body or its sign is absent. -/
structure Big3 where
  sun : String
  moon : String
  rising : String
deriving DecidableEq

/-- The return value of `buildPlacements`. -/
structure Placements where
  big3 : Big3
  list : List ListedPlacement
deriving DecidableEq

/-- `buildPlacements` from generate-chart.js: the main list, the optional
South Node push, and the lower-cased big three. -/
def buildPlacements (wh : WesternHoroscope) : Placements :=
  { big3 :=
      { sun := jsToLower (((pickPlanet wh.planets "Sun").map (fun p => p.sign)).getD ""),
        moon := jsToLower (((pickPlanet wh.planets "Moon").map (fun p => p.sign)).getD ""),
        rising := jsToLower (risingSignOf wh) },
    list :=
      match southNodeOf wh.planets wh.houses with
      | some sn => mainListOf wh.planets wh.houses ++ [⟨"South Node", sn.sign, some sn.house⟩]
      | none => mainListOf wh.planets wh.houses }

/-- The post-ephemeris step of the `buildPlacements`-based handler
(generate-chart.js, third handler variant): it builds the placements and
returns them as a success unconditionally — there is no completeness
check on the big three in this variant. -/
def chartHandlerStep (wh : WesternHoroscope) : Except String Placements :=
  Except.ok (buildPlacements wh)

/-! ## The part_000 handler: big-three extraction, geo fallback chain,
date/time parsing, Kit tag loops -/

/-- `titleCase` from part_000: first character upper-cased, rest
lower-cased, `""` for a falsy input. -/
def titleCase (s : String) : String :=
  match s.data with
  | [] => ""
  | c :: rest => String.mk (c.toUpper :: rest.map Char.toLower)

/-- `getPlanetSign` from part_000: exact (case-sensitive) name match,
then `titleCase` of the sign (`""` when the body or sign is absent). -/
def getPlanetSign (planets : List PlanetEntry) (name : String) : String :=
  titleCase (((planets.find? (fun p => p.name == name)).map (fun p => p.sign)).getD "")

/-- A house-cusps entry `{house, sign}` as read by
`getRisingSignFromHouses` in part_000. -/
structure CuspEntry where
  house : ℚ
  sign : String
deriving DecidableEq

/-- `getRisingSignFromHouses` from part_000: the sign of the house-1
cusp, title-cased, `""` when absent. -/
def getRisingSignFromHouses (cusps : List CuspEntry) : String :=
  titleCase (((cusps.find? (fun h => h.house == 1)).map (fun h => h.sign)).getD "")

/-- The big-three extraction and mandatory check of part_000
(`if (!sun || !moon || !rising) throw …`). -/
def bigThreeStep (planets : List PlanetEntry) (cusps : List CuspEntry) :
    Except String (String × String × String) :=
  if getPlanetSign planets "Sun" = "" ∨ getPlanetSign planets "Moon" = "" ∨
      getRisingSignFromHouses cusps = "" then
    Except.error "Could not extract Sun/Moon/Rising from AstrologyAPI responses"
  else Except.ok (getPlanetSign planets "Sun", getPlanetSign planets "Moon",
    getRisingSignFromHouses cusps)

/-- One geocoding result (`geonames` entry); by the Location Provider
interface contract its coordinates are (finite) numbers, so the
`Number.isFinite` guard of the handler reduces to presence of a result. -/
structure GeoName where
  latitude : ℚ
  longitude : ℚ
deriving DecidableEq

/-- The candidate list of the part_000 geo fallback chain: trimmed input,
city before the first comma, city plus the fixed `", Australia"` suffix. -/
def geoAttempts (birthplace : String) : List String :=
  [jsTrim birthplace,
   jsTrim ((jsSplit ',' birthplace).getD 0 ""),
   jsTrim ((jsSplit ',' birthplace).getD 0 "") ++ ", Australia"]

/-- The `for (const place of attempts)` loop of part_000: a provider
error is caught (recorded as `lastGeoError`) and the loop continues; an
empty result overwrites `geo` and the loop continues; the first
non-empty result breaks the loop. -/
def geoLoop (provider : String → Except String (List GeoName)) :
    List String → Option (List GeoName) → Option String →
      Option (List GeoName) × Option String
  | [], geo, lastErr => (geo, lastErr)
  | place :: rest, geo, lastErr =>
    match provider place with
    | Except.error e => geoLoop provider rest geo (some e)
    | Except.ok g => if g.length ≠ 0 then (some g, lastErr) else geoLoop provider rest (some g) lastErr

/-- The geo fallback chain of part_000 around `geoLoop`: take the first
`geonames` entry of the final `geo` value; when there is none, fail with
the diagnostic that joins every candidate with `" → "` and appends the
last provider error, if any. -/
def resolveGeo (provider : String → Except String (List GeoName)) (birthplace : String) :
    Except String (ℚ × ℚ) :=
  match (((geoLoop provider (geoAttempts birthplace) none none).1).getD []).head? with
  | some g0 => Except.ok (g0.latitude, g0.longitude)
  | none =>
      Except.error ("Birthplace not found. Tried: " ++ joinSep " → " (geoAttempts birthplace) ++
        (match (geoLoop provider (geoAttempts birthplace) none none).2 with
         | some e => " | " ++ e
         | none => ""))

/-- A candidate query is unusable when the provider errors on it or
returns an empty result list — the two situations the loop swallows. -/
def geoMiss (provider : String → Except String (List GeoName)) (a : String) : Prop :=
  (∃ e, provider a = Except.error e) ∨ provider a = Except.ok []

/-- The parsed date/time record of part_000's `parseDobTob`. -/
structure DobTob where
  year : ℚ
  month : ℚ
  day : ℚ
  hour : ℚ
  min : ℚ
deriving DecidableEq

/-- `parseDobTob` from part_000: split `dob` on `"-"` and `tob` on
`":"`, coerce each piece with `Number(…)`, reject when any of the five
components is not finite. A missing component (the destructuring
producing `undefined`) and a `NaN` component are both `none`. No range
check is performed. -/
def parseDobTob (dob tob : String) : Except String DobTob :=
  match ((jsSplit '-' dob).map jsNumber).getD 0 none,
        ((jsSplit '-' dob).map jsNumber).getD 1 none,
        ((jsSplit '-' dob).map jsNumber).getD 2 none,
        ((jsSplit ':' tob).map jsNumber).getD 0 none,
        ((jsSplit ':' tob).map jsNumber).getD 1 none with
  | some y, some m, some d, some hh, some mm => Except.ok ⟨y, m, d, hh, mm⟩
  | _, _, _, _, _ => Except.error "dob must be YYYY-MM-DD and tob must be HH:MM"

/-- The Kit tag loop of part_000: unmapped keys are skipped, a failed
tag call is only warned about and the loop continues. The result is the
list of attempted (resolved) keys, in order, and the list of keys whose
tag call failed. -/
def kitTagsTolerant (tagMap : String → Option ℕ) (applyTag : ℕ → Bool) :
    List String → List String × List String
  | [] => ([], [])
  | key :: rest =>
    match tagMap key with
    | none => kitTagsTolerant tagMap applyTag rest
    | some tid =>
      if applyTag tid then
        ((kitTagsTolerant tagMap applyTag rest).1.cons key,
         (kitTagsTolerant tagMap applyTag rest).2)
      else
        ((kitTagsTolerant tagMap applyTag rest).1.cons key,
         (kitTagsTolerant tagMap applyTag rest).2.cons key)

/-- The Kit tag loop of the first generate-chart.js handler: unmapped
keys are skipped, but a failed tag call throws
`Kit tag (<key>): <message>`, aborting the loop (and the request). The
result is the list of keys attempted before termination and the
terminal error, if one occurred. -/
def kitTagsStrict (tagMap : String → Option ℕ) (applyTag : ℕ → Except String Unit) :
    List String → List String × Option String
  | [] => ([], none)
  | key :: rest =>
    match tagMap key with
    | none => kitTagsStrict tagMap applyTag rest
    | some tid =>
      match applyTag tid with
      | Except.ok _ =>
        ((kitTagsStrict tagMap applyTag rest).1.cons key, (kitTagsStrict tagMap applyTag rest).2)
      | Except.error e => ([key], some ("Kit tag (" ++ key ++ "): " ++ e))

/-! ## Concrete fixtures used to evaluate the definitions -/

/-- The wrapping cusp set of the spec's house examples: house `k` starts
at `20 + 30·(k−1)` degrees, so house 12 starts at 350° and its segment
wraps through 0° to house 1's cusp at 20°. -/
def wrapCusps : List HouseCusp :=
  [⟨1, 20⟩, ⟨2, 50⟩, ⟨3, 80⟩, ⟨4, 110⟩, ⟨5, 140⟩, ⟨6, 170⟩,
   ⟨7, 200⟩, ⟨8, 230⟩, ⟨9, 260⟩, ⟨10, 290⟩, ⟨11, 320⟩, ⟨12, 350⟩]

/-- An ephemeris response whose North Node entry reports degree 10 with
a sign and house of its own (which must NOT be copied to the South
Node). -/
def wh0 : WesternHoroscope :=
  ⟨[⟨"Sun", "Gemini", some 75, none, some 1⟩,
    ⟨"Moon", "Scorpio", some 200, none, some 7⟩,
    ⟨"Node", "Aries", some 10, none, some 3⟩],
   wrapCusps, none⟩

/-- An ephemeris response whose North Node entry carries a sign but no
degree in either spelling. -/
def whNoNodeDeg : WesternHoroscope :=
  ⟨[⟨"Node", "Aries", none, none, some 3⟩], [], none⟩

/-- An ephemeris response with a Sun but no Moon entry at all. -/
def whNoMoon : WesternHoroscope :=
  ⟨[⟨"Sun", "Gemini", none, none, some 1⟩], [], none⟩

/-- A tag mapping that resolves all three big-three tag keys. -/
def tagMap0 : String → Option ℕ := fun k =>
  if k = "SUN_Gemini" then some 1
  else if k = "MOON_Scorpio" then some 2
  else if k = "RISING_Capricorn" then some 3
  else none

/-- A tag-application oracle that fails on exactly the second tag id. -/
def applyTag0 : ℕ → Except String Unit := fun t =>
  if t = 2 then Except.error "upstream failure" else Except.ok ()

/-- A location provider that fails on every query except the bare city
`"Melbourne"`. -/
def geoProvider0 : String → Except String (List GeoName) := fun q =>
  if q = "Melbourne" then Except.ok [⟨-37, 144⟩] else Except.error "geo_details failed"

/-! ## Properties of the Degree Normalizer -/

theorem normUp_nonneg (d : ℚ) : 0 ≤ normUp d := by
  induction d using normUp.induct with
  | case1 d h ih =>
    rw [normUp, dif_pos h]
    exact ih
  | case2 d h =>
    rw [normUp, dif_neg h]
    linarith

theorem normUp_shift (d : ℚ) : ∃ k : ℕ, normUp d = d + 360 * k := by
  induction d using normUp.induct with
  | case1 d h ih =>
    obtain ⟨k, hk⟩ := ih
    refine ⟨k + 1, ?_⟩
    rw [normUp, dif_pos h, hk]
    push_cast
    ring
  | case2 d h =>
    exact ⟨0, by rw [normUp, dif_neg h]; push_cast; ring⟩

theorem normDown_lt (d : ℚ) : normDown d < 360 := by
  induction d using normDown.induct with
  | case1 d h ih =>
    rw [normDown, dif_pos h]
    exact ih
  | case2 d h =>
    rw [normDown, dif_neg h]
    linarith

theorem normDown_nonneg (d : ℚ) : 0 ≤ d → 0 ≤ normDown d := by
  induction d using normDown.induct with
  | case1 d h ih =>
    intro _
    rw [normDown, dif_pos h]
    exact ih (by linarith)
  | case2 d h =>
    intro hd
    rw [normDown, dif_neg h]
    exact hd

theorem normDown_shift (d : ℚ) : ∃ k : ℕ, normDown d = d - 360 * k := by
  induction d using normDown.induct with
  | case1 d h ih =>
    obtain ⟨k, hk⟩ := ih
    refine ⟨k + 1, ?_⟩
    rw [normDown, dif_pos h, hk]
    push_cast
    ring
  | case2 d h =>
    exact ⟨0, by rw [normDown, dif_neg h]; push_cast; ring⟩

theorem normalizeDeg_nonneg (d : ℚ) : 0 ≤ normalizeDeg d :=
  normDown_nonneg _ (normUp_nonneg d)

theorem normalizeDeg_lt (d : ℚ) : normalizeDeg d < 360 :=
  normDown_lt _

theorem normalizeDeg_shift (d : ℚ) : ∃ m : ℤ, normalizeDeg d = d + 360 * m := by
  obtain ⟨k, hk⟩ := normUp_shift d
  obtain ⟨k', hk'⟩ := normDown_shift (normUp d)
  refine ⟨(k : ℤ) - (k' : ℤ), ?_⟩
  rw [normalizeDeg, hk', hk]
  push_cast
  ring

/-- A value already in `[0, 360)` is a fixed point of `normalizeDeg`. -/
theorem normalizeDeg_of_range (d : ℚ) (h1 : 0 ≤ d) (h2 : d < 360) : normalizeDeg d = d := by
  rw [normalizeDeg, normUp, dif_neg (not_lt.mpr h1), normDown, dif_neg (by linarith)]

/-- Evaluation rule: `normalizeDeg d` is the unique representative of
`d` modulo 360 that lies in `[0, 360)`. -/
theorem normalizeDeg_eq_of (d r : ℚ) (k : ℤ) (hr : r = d - 360 * k) (h1 : 0 ≤ r)
    (h2 : r < 360) : normalizeDeg d = r := by
  obtain ⟨m, hm⟩ := normalizeDeg_shift d
  have hn1 : 0 ≤ normalizeDeg d := normalizeDeg_nonneg d
  have hn2 : normalizeDeg d < 360 := normalizeDeg_lt d
  have hdiff : normalizeDeg d - r = 360 * ((m + k : ℤ) : ℚ) := by
    rw [hm, hr]
    push_cast
    ring
  have hb1 : (-1 : ℚ) < ((m + k : ℤ) : ℚ) := by nlinarith
  have hb2 : ((m + k : ℤ) : ℚ) < 1 := by nlinarith
  have hz : (m + k : ℤ) = 0 := by
    have hb1' : (-1 : ℤ) < m + k := by exact_mod_cast hb1
    have hb2' : (m + k : ℤ) < 1 := by exact_mod_cast hb2
    omega
  rw [hz] at hdiff
  push_cast at hdiff
  linarith

theorem normalizeDeg_idem (d : ℚ) : normalizeDeg (normalizeDeg d) = normalizeDeg d :=
  normalizeDeg_of_range _ (normalizeDeg_nonneg d) (normalizeDeg_lt d)

/-- C8: for every degree `d`, `normalizeDeg d` lies in the half-open
interval `[0, 360)` (never exactly 360), and `normalizeDeg` is
idempotent. -/
theorem normalizeDeg_range_and_idem (d : ℚ) :
    0 ≤ normalizeDeg d ∧ normalizeDeg d < 360 ∧
      normalizeDeg (normalizeDeg d) = normalizeDeg d :=
  ⟨normalizeDeg_nonneg d, normalizeDeg_lt d, normalizeDeg_idem d⟩

/-! ## Properties of the Sign Resolver -/

theorem degreeToSign_index_lt (d : ℚ) : (⌊normalizeDeg d / 30⌋).toNat < 12 := by
  have h2 : normalizeDeg d < 360 := normalizeDeg_lt d
  have : ⌊normalizeDeg d / 30⌋ < 12 := by
    apply Int.floor_lt.mpr
    push_cast
    rw [div_lt_iff₀ (by norm_num : (0:ℚ) < 30)]
    linarith
  omega

/-- C9: `degreeToSign` indexes the fixed zodiacal order (starting at
Aries) at `floor(normalize(d) / 30)`, the index is always in bounds, and
the boundary cases resolve with floor semantics:
`signOf 0 = Aries`, `signOf 29.999 = Aries`, `signOf 30 = Taurus`,
`signOf 359.999 = Pisces`, `signOf 360 = Aries`. -/
theorem degreeToSign_floor_semantics (d : ℚ) :
    (⌊normalizeDeg d / 30⌋).toNat < 12 ∧
    degreeToSign d = zodiacSigns.getD (⌊normalizeDeg d / 30⌋).toNat "" ∧
    degreeToSign 0 = "Aries" ∧
    degreeToSign (29999/1000) = "Aries" ∧
    degreeToSign 30 = "Taurus" ∧
    degreeToSign (359999/1000) = "Pisces" ∧
    degreeToSign 360 = "Aries" := by
  refine ⟨degreeToSign_index_lt d, rfl, ?_, ?_, ?_, ?_, ?_⟩
  · have h : normalizeDeg (0:ℚ) = 0 := normalizeDeg_of_range 0 (by norm_num) (by norm_num)
    have h2 : (⌊(0:ℚ) / 30⌋ : ℤ) = 0 := by norm_num
    rw [degreeToSign, h, h2]
    decide
  · have h : normalizeDeg (29999/1000 : ℚ) = 29999/1000 :=
      normalizeDeg_of_range _ (by norm_num) (by norm_num)
    have h2 : (⌊(29999/1000 : ℚ) / 30⌋ : ℤ) = 0 := by norm_num
    rw [degreeToSign, h, h2]
    decide
  · have h : normalizeDeg (30:ℚ) = 30 := normalizeDeg_of_range 30 (by norm_num) (by norm_num)
    have h2 : (⌊(30:ℚ) / 30⌋ : ℤ) = 1 := by norm_num
    rw [degreeToSign, h, h2]
    decide
  · have h : normalizeDeg (359999/1000 : ℚ) = 359999/1000 :=
      normalizeDeg_of_range _ (by norm_num) (by norm_num)
    have h2 : (⌊(359999/1000 : ℚ) / 30⌋ : ℤ) = 11 := by norm_num
    rw [degreeToSign, h, h2]
    decide
  · have h : normalizeDeg (360:ℚ) = 0 :=
      normalizeDeg_eq_of 360 0 1 (by norm_num) (by norm_num) (by norm_num)
    have h2 : (⌊(0:ℚ) / 30⌋ : ℤ) = 0 := by norm_num
    rw [degreeToSign, h, h2]
    decide

/-! ## Properties of the House Assigner -/

/-- `findSome?` over `range n` returns the value at the first index whose
probe is productive. -/
theorem findSome?_range_first {β : Type _} (f : ℕ → Option β) (n i : ℕ) (b : β)
    (hi : i < n) (hfi : f i = some b) (hnone : ∀ j, j < i → f j = none) :
    (List.range n).findSome? f = some b := by
  rw [List.range_eq_range']
  have main : ∀ (k s : ℕ), s ≤ i → i < s + k → (∀ j, s ≤ j → j < i → f j = none) →
      (List.range' s k).findSome? f = some b := by
    intro k
    induction k with
    | zero => intro s hs1 hs2 _; omega
    | succ k ih =>
      intro s hs1 hs2 hn
      rw [List.range'_succ, List.findSome?_cons]
      rcases eq_or_lt_of_le hs1 with heq | hlt
      · subst heq
        rw [hfi]
      · rw [hn s le_rfl hlt]
        exact ih (s + 1) hlt (by omega) (fun j hj1 hj2 => hn j (by omega) hj2)
  exact main n 0 (by omega) (by omega) (fun j _ hj => hnone j hj)

/-- The sort of the wrapping fixture is the identity: its cusps are
already normalized and listed in ascending house order. -/
theorem sortCusps_wrapCusps : sortCusps wrapCusps = wrapCusps := by
  norm_num [sortCusps, wrapCusps, List.insertionSort, List.orderedInsert, normalizeDeg_of_range]

/-- C2: `getHouseFromCusps` returns the house number of the first cusp,
in ascending house-number order, whose zodiacal segment (to the next
cusp, wrapping at the list end) contains the normalized degree;
segment membership is `start ≤ p < stop` for a non-wrapping segment and
`p ≥ start or p < stop` for a wrapping one; and on the wrapping fixture
(house 12 at 350°, house 1 at 20°): `houseOf 355 = 12`,
`houseOf 10 = 12`, `houseOf 25 = 1`. -/
theorem getHouseFromCusps_first_match (d : ℚ) (houses : List HouseCusp) (i : ℕ)
    (hi : i < (sortCusps houses).length)
    (hseg : segContains (normalizeDeg d) ((sortCusps houses).getD i ⟨1, 0⟩).degree
      ((sortCusps houses).getD ((i + 1) % (sortCusps houses).length) ⟨1, 0⟩).degree = true)
    (hfirst : ∀ j, j < i →
      segContains (normalizeDeg d) ((sortCusps houses).getD j ⟨1, 0⟩).degree
        ((sortCusps houses).getD ((j + 1) % (sortCusps houses).length) ⟨1, 0⟩).degree = false) :
    getHouseFromCusps d houses = ((sortCusps houses).getD i ⟨1, 0⟩).house ∧
    (∀ p s t : ℚ, (s ≤ t → (segContains p s t = true ↔ s ≤ p ∧ p < t)) ∧
      (t < s → (segContains p s t = true ↔ s ≤ p ∨ p < t))) ∧
    getHouseFromCusps 355 wrapCusps = 12 ∧
    getHouseFromCusps 10 wrapCusps = 12 ∧
    getHouseFromCusps 25 wrapCusps = 1 := by
  refine ⟨?_, ?_, ?_, ?_, ?_⟩
  · have h1 : cuspProbe (normalizeDeg d) (sortCusps houses) i =
        some ((sortCusps houses).getD i ⟨1, 0⟩).house := by
      rw [cuspProbe, if_pos hseg]
    have h2 : ∀ j, j < i → cuspProbe (normalizeDeg d) (sortCusps houses) j = none := by
      intro j hj
      have hb := hfirst j hj
      rw [cuspProbe, if_neg (by rw [hb]; simp)]
    rw [getHouseFromCusps,
      findSome?_range_first (cuspProbe (normalizeDeg d) (sortCusps houses)) _ i _ hi h1 h2]
  · intro p s t
    constructor
    · intro hst
      rw [segContains, if_pos hst, decide_eq_true_eq]
    · intro hts
      rw [segContains, if_neg (not_le.mpr hts), decide_eq_true_eq]
  · norm_num [getHouseFromCusps, sortCusps, cuspProbe, segContains, normalizeDeg_of_range,
      wrapCusps, List.insertionSort, List.orderedInsert, List.range_succ, List.findSome?,
      List.getD, List.length]
  · norm_num [getHouseFromCusps, sortCusps, cuspProbe, segContains, normalizeDeg_of_range,
      wrapCusps, List.insertionSort, List.orderedInsert, List.range_succ, List.findSome?,
      List.getD, List.length]
  · norm_num [getHouseFromCusps, sortCusps, cuspProbe, segContains, normalizeDeg_of_range,
      wrapCusps, List.insertionSort, List.orderedInsert, List.range_succ, List.findSome?,
      List.getD, List.length]

/-- Witness for C2: on the wrapping fixture the first matching segment
for 355° is the one of house 12 (index 11 of the sorted cusps). -/
theorem getHouseFromCusps_first_match_witness : getHouseFromCusps 355 wrapCusps = 12 := by
  have hlen : 11 < (sortCusps wrapCusps).length := by
    rw [sortCusps_wrapCusps]
    norm_num [wrapCusps]
  have hseg : segContains (normalizeDeg 355) ((sortCusps wrapCusps).getD 11 ⟨1, 0⟩).degree
      ((sortCusps wrapCusps).getD ((11 + 1) % (sortCusps wrapCusps).length) ⟨1, 0⟩).degree
        = true := by
    rw [sortCusps_wrapCusps, normalizeDeg_of_range 355 (by norm_num) (by norm_num)]
    decide
  have hfirst : ∀ j, j < 11 →
      segContains (normalizeDeg 355) ((sortCusps wrapCusps).getD j ⟨1, 0⟩).degree
        ((sortCusps wrapCusps).getD ((j + 1) % (sortCusps wrapCusps).length) ⟨1, 0⟩).degree
          = false := by
    intro j hj
    rw [sortCusps_wrapCusps, normalizeDeg_of_range 355 (by norm_num) (by norm_num)]
    interval_cases j <;> decide
  have h := (getHouseFromCusps_first_match 355 wrapCusps 11 hlen hseg hfirst).1
  rw [sortCusps_wrapCusps] at h
  rw [h]
  decide

/-- C10: with every cusp's house number an integer between 1 and 12,
`getHouseFromCusps` always returns (it is a total function) and its
result is an integer between 1 and 12 — a matched cusp's house number,
or the fallback 1. -/
theorem getHouseFromCusps_total_in_range (d : ℚ) (houses : List HouseCusp)
    (h : ∀ c ∈ houses, (c.house).den = 1 ∧ 1 ≤ c.house ∧ c.house ≤ 12) :
    (getHouseFromCusps d houses).den = 1 ∧ 1 ≤ getHouseFromCusps d houses ∧
      getHouseFromCusps d houses ≤ 12 := by
  rw [getHouseFromCusps]
  cases hfind : (List.range (sortCusps houses).length).findSome?
      (cuspProbe (normalizeDeg d) (sortCusps houses)) with
  | none =>
    refine ⟨rfl, by norm_num, by norm_num⟩
  | some q =>
    obtain ⟨i, hi, hpi⟩ := List.exists_of_findSome?_eq_some hfind
    have hq : q = ((sortCusps houses).getD i ⟨1, 0⟩).house := by
      by_cases hb : segContains (normalizeDeg d) ((sortCusps houses).getD i ⟨1, 0⟩).degree
          ((sortCusps houses).getD ((i + 1) % (sortCusps houses).length) ⟨1, 0⟩).degree = true
      · rw [cuspProbe, if_pos hb] at hpi
        exact (Option.some_inj.mp hpi).symm
      · rw [cuspProbe, if_neg hb] at hpi
        exact absurd hpi (by simp)
    have hlen : i < (sortCusps houses).length := List.mem_range.mp hi
    have hmem : (sortCusps houses).getD i ⟨1, 0⟩ ∈ sortCusps houses := by
      rw [List.getD_eq_getElem?_getD, List.getElem?_eq_getElem hlen]
      exact List.getElem_mem hlen
    have hmem2 : (sortCusps houses).getD i ⟨1, 0⟩ ∈
        houses.map (fun c => ({ house := c.house, degree := normalizeDeg c.degree } : HouseCusp)) := by
      exact (List.mem_insertionSort _).mp hmem
    obtain ⟨c, hc, hceq⟩ := List.mem_map.mp hmem2
    have hhouse : ((sortCusps houses).getD i ⟨1, 0⟩).house = c.house := by
      rw [← hceq]
    rcases h c hc with ⟨hd1, hd2, hd3⟩
    rw [hq, hhouse]
    exact ⟨hd1, hd2, hd3⟩

/-- Witness for C10: on the wrapping fixture (all house numbers integers
in 1..12) the result for 355° is an integer between 1 and 12. -/
theorem getHouseFromCusps_total_in_range_witness :
    (getHouseFromCusps 355 wrapCusps).den = 1 ∧ 1 ≤ getHouseFromCusps 355 wrapCusps ∧
      getHouseFromCusps 355 wrapCusps ≤ 12 :=
  getHouseFromCusps_total_in_range 355 wrapCusps (by decide)

/-! ## Properties of the Placement Assembler -/

/-- No label produced by the main body loop is `"South Node"`. -/
theorem planetOrder_no_south : ∀ nm ∈ planetOrder, nodeLabel nm ≠ "South Node" := by
  decide

/-- C1: when the North Node entry carries a degree `d`, the synthesized
South Node's degree is `normalizeDeg (d + 180)`, its sign is
`degreeToSign` of that computed degree and its house is
`getHouseFromCusps` of that computed degree against the response's
cusps — not copies of the North Node entry's own sign/house fields —
and the assembled placement list contains that South Node entry. -/
theorem southNode_antipode_derived (wh : WesternHoroscope) (d : ℚ)
    (hdeg : nodeFullDegOf wh.planets = some d) :
    southNodeOf wh.planets wh.houses =
      some ⟨"South Node", normalizeDeg (d + 180), degreeToSign (normalizeDeg (d + 180)),
        getHouseFromCusps (normalizeDeg (d + 180)) wh.houses⟩ ∧
    (⟨"South Node", degreeToSign (normalizeDeg (d + 180)),
      some (getHouseFromCusps (normalizeDeg (d + 180)) wh.houses)⟩ : ListedPlacement)
        ∈ (buildPlacements wh).list := by
  have hsn : southNodeOf wh.planets wh.houses =
      some ⟨"South Node", normalizeDeg (d + 180), degreeToSign (normalizeDeg (d + 180)),
        getHouseFromCusps (normalizeDeg (d + 180)) wh.houses⟩ := by
    rw [southNodeOf, hdeg]
    rfl
  refine ⟨hsn, ?_⟩
  simp only [buildPlacements, hsn]
  exact List.mem_append_right _ (by simp)

/-- Witness for C1 at `wh0` (North Node degree 10, its own sign Aries
and house 3): the South Node is synthesized at 190° with sign Libra and
house 6 — independently computed, not copied. -/
theorem southNode_antipode_derived_witness :
    southNodeOf wh0.planets wh0.houses = some ⟨"South Node", 190, "Libra", 6⟩ ∧
    (⟨"South Node", "Libra", some 6⟩ : ListedPlacement) ∈ (buildPlacements wh0).list := by
  have h := southNode_antipode_derived wh0 10 (by decide)
  have e1 : normalizeDeg ((10:ℚ) + 180) = 190 := by
    rw [show ((10:ℚ) + 180) = 190 by norm_num]
    exact normalizeDeg_of_range 190 (by norm_num) (by norm_num)
  have e2 : degreeToSign (190:ℚ) = "Libra" := by
    have hn : normalizeDeg (190:ℚ) = 190 := normalizeDeg_of_range 190 (by norm_num) (by norm_num)
    have h30 : (⌊(190:ℚ) / 30⌋ : ℤ) = 6 := by norm_num
    rw [degreeToSign, hn, h30]
    decide
  have e3 : getHouseFromCusps (190:ℚ) wh0.houses = 6 := by
    show getHouseFromCusps (190:ℚ) wrapCusps = 6
    norm_num [getHouseFromCusps, sortCusps, cuspProbe, segContains, normalizeDeg_of_range,
      wrapCusps, List.insertionSort, List.orderedInsert, List.range_succ, List.findSome?,
      List.getD, List.length]
  rw [e1, e2, e3] at h
  exact h

/-- C4 amended: when the North Node entry's degree is absent, the
placement assembler does NOT fail with any error — it silently skips the
South Node synthesis and returns a placement list with no South Node
entry. -/
theorem southNode_silently_omitted (wh : WesternHoroscope)
    (hdeg : nodeFullDegOf wh.planets = none) :
    southNodeOf wh.planets wh.houses = none ∧
    ∀ e ∈ (buildPlacements wh).list, e.name ≠ "South Node" := by
  have hsn : southNodeOf wh.planets wh.houses = none := by
    rw [southNodeOf, hdeg]
    rfl
  refine ⟨hsn, ?_⟩
  intro e he
  simp only [buildPlacements, hsn] at he
  obtain ⟨nm, hnm, hfnm⟩ := List.mem_filterMap.mp he
  obtain ⟨p, hp, hpe⟩ := Option.map_eq_some'.mp hfnm
  have hname : e.name = nodeLabel nm := by rw [← hpe]
  rw [hname]
  exact planetOrder_no_south nm hnm

/-- Witness for C4 (amended): on the sign-only North Node fixture the
list has a North Node but no South Node, with no failure. -/
theorem southNode_silently_omitted_witness :
    southNodeOf whNoNodeDeg.planets whNoNodeDeg.houses = none ∧
    ∀ e ∈ (buildPlacements whNoNodeDeg).list, e.name ≠ "South Node" :=
  southNode_silently_omitted whNoNodeDeg (by decide)

/-- Counterexample for C4: at the sign-only North Node fixture the
assembler succeeds (the handler step returns `ok`) and its list is
exactly a North Node entry — the South Node is silently omitted instead
of the claimed `IncompleteEphemerisData` failure. -/
theorem southNode_missing_no_failure :
    (buildPlacements whNoNodeDeg).list = [⟨"North Node", "Aries", some 3⟩] ∧
    chartHandlerStep whNoNodeDeg = Except.ok (buildPlacements whNoNodeDeg) :=
  ⟨by decide, rfl⟩

/-- Counterexample for C5: with no Moon entry at all, the
`buildPlacements`-based handler still returns success, with an empty
`big3.moon` — no `IncompletePlacements` failure occurs in that variant. -/
theorem bigThree_empty_moon_success :
    ∃ p, chartHandlerStep whNoMoon = Except.ok p ∧ p.big3.moon = "" ∧ p.big3.sun = "gemini" :=
  ⟨buildPlacements whNoMoon, rfl, by decide, by decide⟩

/-- C5 amended: the handlers that extract the big three directly do
enforce the mandatory check — `bigThreeStep` (part_000) fails whenever
any of Sun, Moon or Rising is undetermined, and any success carries
three non-empty signs. The `buildPlacements`-based variant performs no
such check (see the counterexample). -/
theorem bigThreeStep_mandatory (planets : List PlanetEntry) (cusps : List CuspEntry) :
    (getPlanetSign planets "Sun" = "" ∨ getPlanetSign planets "Moon" = "" ∨
        getRisingSignFromHouses cusps = "" →
      bigThreeStep planets cusps =
        Except.error "Could not extract Sun/Moon/Rising from AstrologyAPI responses") ∧
    (∀ s m r, bigThreeStep planets cusps = Except.ok (s, m, r) →
      s ≠ "" ∧ m ≠ "" ∧ r ≠ "") := by
  constructor
  · intro h
    rw [bigThreeStep, if_pos h]
  · intro s m r hok
    rw [bigThreeStep] at hok
    by_cases h : getPlanetSign planets "Sun" = "" ∨ getPlanetSign planets "Moon" = "" ∨
        getRisingSignFromHouses cusps = ""
    · rw [if_pos h] at hok
      exact absurd hok (by simp)
    · rw [if_neg h] at hok
      push_neg at h
      obtain ⟨h1, h2, h3⟩ := h
      injection hok with hok'
      injection hok' with e1 hok''
      injection hok'' with e2 e3
      subst e1
      subst e2
      subst e3
      exact ⟨h1, h2, h3⟩

/-- Witness for C5 (amended): an empty ephemeris response makes the
extraction step fail with the mandatory-big-three error. -/
theorem bigThreeStep_mandatory_witness :
    bigThreeStep [] [] =
      Except.error "Could not extract Sun/Moon/Rising from AstrologyAPI responses" :=
  (bigThreeStep_mandatory [] []).1 (by decide)

/-! ## Properties of the Kit tag loops -/

/-- Counterexample for C6: in the first generate-chart.js handler's tag
loop, a failure applying the second of three resolved tags aborts the
loop — the third tag is never attempted — and the error propagates,
failing the whole request. -/
theorem strictTags_abort_on_failure :
    kitTagsStrict tagMap0 applyTag0 ["SUN_Gemini", "MOON_Scorpio", "RISING_Capricorn"] =
      (["SUN_Gemini", "MOON_Scorpio"], some "Kit tag (MOON_Scorpio): upstream failure") := by
  decide

/-- C6 amended: the part_000 tag loop is failure-tolerant — every
resolved tag key is attempted no matter which tag calls fail (the
attempted list equals the resolved keys and does not depend on the
success oracle), the loop always completes instead of failing the
pipeline, and failures are recorded (as warnings) only. The first
generate-chart.js handler's loop instead aborts on the first failed tag
call (see the counterexample). -/
theorem tolerantTags_attempt_all (tagMap : String → Option ℕ) (applyTag : ℕ → Bool)
    (keys : List String) :
    (kitTagsTolerant tagMap applyTag keys).1 = keys.filter (fun k => (tagMap k).isSome) ∧
    (kitTagsTolerant tagMap applyTag keys).2 =
      keys.filter (fun k => ((tagMap k).map (fun t => !applyTag t)).getD false) := by
  induction keys with
  | nil => exact ⟨rfl, rfl⟩
  | cons key rest ih =>
    obtain ⟨ih1, ih2⟩ := ih
    cases htm : tagMap key with
    | none =>
      refine ⟨?_, ?_⟩ <;> simp [kitTagsTolerant, htm, List.filter_cons, ih1, ih2]
    | some tid =>
      by_cases hap : applyTag tid = true
      · refine ⟨?_, ?_⟩ <;> simp [kitTagsTolerant, htm, hap, List.filter_cons, ih1, ih2]
      · have hap' : applyTag tid = false := by
          cases hv : applyTag tid
          · rfl
          · exact absurd hv hap
        refine ⟨?_, ?_⟩ <;> simp [kitTagsTolerant, htm, hap', List.filter_cons, ih1, ih2]

/-! ## Properties of the date/time parser -/

/-- Counterexample for C7: the out-of-range month 13 is accepted by
`parseDobTob` (only finiteness of the five components is checked, not
calendar ranges), so the part_000 pipeline does not reject such a
BirthEvent before its provider calls. -/
theorem parseDobTob_accepts_month_13 :
    parseDobTob "1990-13-15" "14:30" = Except.ok ⟨1990, 13, 15, 14, 30⟩ ∧
      ¬ ((13:ℚ) ≤ 12) := by
  refine ⟨?_, by decide⟩
  have h1 : ((jsSplit '-' "1990-13-15").map jsNumber).getD 0 none = some 1990 := by decide
  have h2 : ((jsSplit '-' "1990-13-15").map jsNumber).getD 1 none = some 13 := by decide
  have h3 : ((jsSplit '-' "1990-13-15").map jsNumber).getD 2 none = some 15 := by decide
  have h4 : ((jsSplit ':' "14:30").map jsNumber).getD 0 none = some 14 := by decide
  have h5 : ((jsSplit ':' "14:30").map jsNumber).getD 1 none = some 30 := by decide
  rw [parseDobTob, h1, h2, h3, h4, h5]

/-- C7 amended: `parseDobTob` rejects, before any provider call is made
in the part_000 handler, exactly those inputs for which one of the five
date/time components fails the `Number` coercion (is not finite); when
all five coerce, it accepts them unchanged — calendar-range validity
(month 1–12, day 1–31, hour 0–23, minute 0–59) is never checked. -/
theorem parseDobTob_checks_finiteness_only (dob tob : String) :
    ((((jsSplit '-' dob).map jsNumber).getD 0 none = none ∨
      ((jsSplit '-' dob).map jsNumber).getD 1 none = none ∨
      ((jsSplit '-' dob).map jsNumber).getD 2 none = none ∨
      ((jsSplit ':' tob).map jsNumber).getD 0 none = none ∨
      ((jsSplit ':' tob).map jsNumber).getD 1 none = none) →
      parseDobTob dob tob = Except.error "dob must be YYYY-MM-DD and tob must be HH:MM") ∧
    (∀ y m d hh mm : ℚ,
      ((jsSplit '-' dob).map jsNumber).getD 0 none = some y →
      ((jsSplit '-' dob).map jsNumber).getD 1 none = some m →
      ((jsSplit '-' dob).map jsNumber).getD 2 none = some d →
      ((jsSplit ':' tob).map jsNumber).getD 0 none = some hh →
      ((jsSplit ':' tob).map jsNumber).getD 1 none = some mm →
      parseDobTob dob tob = Except.ok ⟨y, m, d, hh, mm⟩) := by
  constructor
  · intro h
    rw [parseDobTob]
    cases e1 : ((jsSplit '-' dob).map jsNumber).getD 0 none with
    | none => rfl
    | some y =>
      cases e2 : ((jsSplit '-' dob).map jsNumber).getD 1 none with
      | none => rfl
      | some m =>
        cases e3 : ((jsSplit '-' dob).map jsNumber).getD 2 none with
        | none => rfl
        | some d =>
          cases e4 : ((jsSplit ':' tob).map jsNumber).getD 0 none with
          | none => rfl
          | some hh =>
            cases e5 : ((jsSplit ':' tob).map jsNumber).getD 1 none with
            | none => rfl
            | some mm =>
              rw [e1, e2, e3, e4, e5] at h
              rcases h with h | h | h | h | h <;> exact absurd h (by simp)
  · intro y m d hh mm h1 h2 h3 h4 h5
    rw [parseDobTob, h1, h2, h3, h4, h5]

/-- Witness for C7 (amended): a non-numeric month is rejected with the
parse error, while a fully numeric date/time parses to its components. -/
theorem parseDobTob_checks_finiteness_only_witness :
    parseDobTob "1990-junk-15" "14:30" =
      Except.error "dob must be YYYY-MM-DD and tob must be HH:MM" ∧
    parseDobTob "1990-06-15" "14:30" = Except.ok ⟨1990, 6, 15, 14, 30⟩ := by
  constructor
  · exact (parseDobTob_checks_finiteness_only "1990-junk-15" "14:30").1 (by decide)
  · exact (parseDobTob_checks_finiteness_only "1990-06-15" "14:30").2 1990 6 15 14 30
      (by decide) (by decide) (by decide) (by decide) (by decide)

/-! ## Properties of the Location Resolver fallback chain -/

/-- When every candidate of the loop misses (provider error or empty
result), the final `geo` state holds no result entry. -/
theorem geoLoop_all_miss (provider : String → Except String (List GeoName)) :
    ∀ (l : List String) (geo : Option (List GeoName)) (err : Option String),
      (∀ a ∈ l, geoMiss provider a) → geo.getD [] = [] →
      ((geoLoop provider l geo err).1).getD [] = [] := by
  intro l
  induction l with
  | nil =>
    intro geo err _ hg
    exact hg
  | cons a rest ih =>
    intro geo err hmiss hg
    rcases hmiss a (List.mem_cons_self a rest) with ⟨e, he⟩ | hok
    · rw [geoLoop, he]
      exact ih geo (some e) (fun b hb => hmiss b (List.mem_cons_of_mem a hb)) hg
    · rw [geoLoop, hok]
      exact ih (some []) err (fun b hb => hmiss b (List.mem_cons_of_mem a hb)) rfl

/-- When every candidate before `c` misses and the provider returns a
non-empty result for `c`, the loop stops at `c` with that result. -/
theorem geoLoop_first_hit (provider : String → Except String (List GeoName)) (g0 : GeoName)
    (gs : List GeoName) :
    ∀ (l₁ : List String) (c : String) (l₂ : List String) (geo : Option (List GeoName))
      (err : Option String),
      (∀ a ∈ l₁, geoMiss provider a) → provider c = Except.ok (g0 :: gs) →
      ∃ err', geoLoop provider (l₁ ++ c :: l₂) geo err = (some (g0 :: gs), err') := by
  intro l₁
  induction l₁ with
  | nil =>
    intro c l₂ geo err _ hc
    refine ⟨err, ?_⟩
    rw [List.nil_append, geoLoop, hc]
    simp
  | cons a rest ih =>
    intro c l₂ geo err hmiss hc
    rcases hmiss a (List.mem_cons_self a rest) with ⟨e, he⟩ | hok
    · rw [List.cons_append, geoLoop, he]
      exact ih c l₂ geo (some e) (fun b hb => hmiss b (List.mem_cons_of_mem a hb)) hc
    · rw [List.cons_append, geoLoop, hok]
      exact ih c l₂ (some []) err (fun b hb => hmiss b (List.mem_cons_of_mem a hb)) hc

/-- Every element of a joined list appears verbatim inside the join. -/
theorem joinSep_contains (sep : String) :
    ∀ (l : List String), ∀ a ∈ l, ∃ s t, joinSep sep l = s ++ (a ++ t) := by
  intro l
  induction l with
  | nil =>
    intro a ha
    cases ha
  | cons x rest ih =>
    intro a ha
    cases rest with
    | nil =>
      rw [List.mem_singleton] at ha
      subst ha
      refine ⟨"", "", ?_⟩
      rw [joinSep, String.append_empty, String.empty_append]
    | cons y rest' =>
      rcases List.mem_cons.mp ha with heq | hmem
      · subst heq
        refine ⟨"", sep ++ joinSep sep (y :: rest'), ?_⟩
        rw [joinSep]
        simp [String.append_assoc]
      · obtain ⟨s, t, hst⟩ := ih a hmem
        refine ⟨x ++ sep ++ s, t, ?_⟩
        rw [joinSep, hst]
        simp [String.append_assoc]

/-- C3: the location resolver builds exactly the three candidate queries
(trimmed input; the substring before the first comma; that substring
with the fixed `", Australia"` suffix), tries them sequentially in that
order swallowing per-candidate provider errors and empty results,
returns the first coordinate of the first candidate that yields at
least one result, and, when every candidate is exhausted, fails with a
message in which every attempted candidate appears. -/
theorem resolveGeo_fallback_chain (provider : String → Except String (List GeoName))
    (birthplace : String) :
    geoAttempts birthplace =
      [jsTrim birthplace, jsTrim ((jsSplit ',' birthplace).getD 0 ""),
        jsTrim ((jsSplit ',' birthplace).getD 0 "") ++ ", Australia"] ∧
    (∀ (l₁ : List String) (c : String) (l₂ : List String) (g0 : GeoName) (gs : List GeoName),
      geoAttempts birthplace = l₁ ++ c :: l₂ →
      (∀ a ∈ l₁, geoMiss provider a) →
      provider c = Except.ok (g0 :: gs) →
      resolveGeo provider birthplace = Except.ok (g0.latitude, g0.longitude)) ∧
    ((∀ a ∈ geoAttempts birthplace, geoMiss provider a) →
      ∃ msg, resolveGeo provider birthplace = Except.error msg ∧
        ∀ a ∈ geoAttempts birthplace, ∃ s t, msg = s ++ (a ++ t)) := by
  refine ⟨rfl, ?_, ?_⟩
  · intro l₁ c l₂ g0 gs hsplit hmiss hc
    obtain ⟨err', herr⟩ := geoLoop_first_hit provider g0 gs l₁ c l₂ none none hmiss hc
    rw [← hsplit] at herr
    rw [resolveGeo, herr]
    simp
  · intro hmiss
    have hempty := geoLoop_all_miss provider (geoAttempts birthplace) none none hmiss rfl
    rw [resolveGeo]
    cases hh : (((geoLoop provider (geoAttempts birthplace) none none).1).getD []).head? with
    | some g0 =>
      rw [hempty] at hh
      cases hh
    | none =>
      refine ⟨_, rfl, ?_⟩
      intro a ha
      obtain ⟨s, t, hst⟩ := joinSep_contains " → " (geoAttempts birthplace) a ha
      refine ⟨"Birthplace not found. Tried: " ++ s,
        t ++ (match (geoLoop provider (geoAttempts birthplace) none none).2 with
              | some e => " | " ++ e
              | none => ""), ?_⟩
      rw [hst]
      simp [String.append_assoc]

/-- Witness for C3: for `"Melbourne, Australia"` against a provider that
fails on the full string but succeeds on the bare city, the resolver
returns the second candidate's coordinate. -/
theorem resolveGeo_fallback_chain_witness :
    resolveGeo geoProvider0 "Melbourne, Australia" = Except.ok (-37, 144) := by
  have h := (resolveGeo_fallback_chain geoProvider0 "Melbourne, Australia").2.1
    ["Melbourne, Australia"] "Melbourne" ["Melbourne, Australia"] ⟨-37, 144⟩ []
    (by decide)
    (by
      intro a ha
      rw [List.mem_singleton] at ha
      subst ha
      exact Or.inl ⟨"geo_details failed", by rfl⟩)
    (by rfl)
  exact h
